import Mathlib

/-!
# Verification of the rezervemoney/risk borrow-safety core

This file is a shallow embedding, in Lean 4, of the core of the
`rezervemoney/risk` TypeScript repository: the constant-product pool model
(`src/liquidity.ts`), the position health calculator
(`src/helpers/positionMetrics.ts`), the scenario evaluator
(`src/helpers/scenarioChecker.ts`), the safety gate
(`isBorrowSafeAcrossScenarios`) and the borrow solver
(`src/helpers/solveBorrow.ts`).

Modelling conventions:
* JavaScript numbers are modelled by exact rationals `ℚ` wherever only
  field arithmetic is involved; where the IEEE-754 special values
  (`Infinity`, `-Infinity`, `NaN`) carry the behaviour under scrutiny
  (division by zero in the health calculator, `Math.min` folds, the
  `>=` comparison of the gate) we use the type `JsNum`, which is `ℚ`
  extended with signed infinities and a NaN that follows the IEEE
  comparison, division and min rules.
* Where the claims concern binary64 behaviour itself — accumulation drift
  in the LTV sweep, and (non-)termination of the inner binary search — we
  use an exact model of round-to-nearest-even binary64 arithmetic on
  integers scaled by `2 ^ 60` (all numbers reached by those loops lie in
  ranges where this scale represents every double exactly).
* Object mutation is modelled by explicit state passing; for the purity /
  frame claim about `minHealthUnderScenario` we additionally use a small
  store of pool cells and array cells addressed by numeric references, so
  that "does not mutate the caller's pool / the input positions array" is
  a provable statement rather than a triviality of the functional style.
* Unbounded `for`/`while` loops are modelled with an explicit fuel
  parameter; theorems about them quantify over the fuel.
-/

/-! ## JsNum: rationals with IEEE-754 special values -/

/-- A JavaScript number as used by the health calculator: an exact rational,
a signed infinity (`inf true` is `+Infinity`, `inf false` is `-Infinity`),
or `NaN`. -/
inductive JsNum where
  | nan : JsNum
  | inf : Bool → JsNum
  | fin : ℚ → JsNum
deriving DecidableEq

/-- The JavaScript `>=` comparison: any comparison with `NaN` is `false`;
infinities compare in the usual way. -/
def JsNum.ge : JsNum → JsNum → Bool
  | .nan, _ => false
  | _, .nan => false
  | .inf s, .inf t => s || !t
  | .inf s, .fin _ => s
  | .fin _, .inf t => !t
  | .fin a, .fin b => decide (b ≤ a)

/-- JavaScript `Math.min` on two arguments: `NaN` if either argument is
`NaN`, otherwise the smaller value. -/
def JsNum.min : JsNum → JsNum → JsNum
  | .nan, _ => .nan
  | _, .nan => .nan
  | .inf true, y => y
  | x, .inf true => x
  | .inf false, _ => .inf false
  | _, .inf false => .inf false
  | .fin a, .fin b => .fin (if a ≤ b then a else b)

/-- JavaScript division: `0/0 = NaN`, `a/0 = ±Infinity` for `a ≠ 0`,
finite/infinite = `0`, infinite/infinite = `NaN`, `NaN` propagates. -/
def JsNum.div : JsNum → JsNum → JsNum
  | .nan, _ => .nan
  | _, .nan => .nan
  | .inf _, .inf _ => .nan
  | .inf s, .fin b => .inf (s == decide (0 ≤ b))
  | .fin _, .inf _ => .fin 0
  | .fin a, .fin b =>
      if b = 0 then (if a = 0 then .nan else .inf (decide (0 < a)))
      else .fin (a / b)

/-! ## The pool model (`src/liquidity.ts`, class `LiquidityPool`)

The TypeScript class holds two reserves and a field `k` set to their
product by the constructor and by the liquidity operations.  Note that the
two swap methods update one reserve and compute `newRzrInPool = k / ...`
but never store it; this is reproduced verbatim. -/

structure LiquidityPool where
  rzrInLiquidityPool : ℚ
  ethInLiquidityPool : ℚ
  k : ℚ
deriving DecidableEq

/-- The `LiquidityPool` constructor: `this.k = rzr * eth`. -/
def LiquidityPool.make (rzr eth : ℚ) : LiquidityPool := ⟨rzr, eth, rzr * eth⟩

/-- Return value of `swapEthForRzr`. -/
structure SwapEthForRzrResult where
  rzrReceived : ℚ
  newRzrPrice : ℚ
deriving DecidableEq

/-- Return value of `swapRzrForEth`. -/
structure SwapRzrForEthResult where
  ethReceived : ℚ
  newRzrPrice : ℚ
deriving DecidableEq

/-- `swapEthForRzr(ethSpent)`: subtracts `ethSpent` from the ETH reserve,
computes `newRzrInPool = k / eth` and the output amount, but (as in the
source) never writes `newRzrInPool` back to the RZR reserve.  Returns the
result record and the post-call object state. -/
def LiquidityPool.swapEthForRzr (p : LiquidityPool) (ethSpent : ℚ) :
    SwapEthForRzrResult × LiquidityPool :=
  let eth' := p.ethInLiquidityPool - ethSpent
  let newRzrInPool := p.k / eth'
  let amountOut := newRzrInPool - p.rzrInLiquidityPool
  (⟨amountOut, eth' / p.rzrInLiquidityPool⟩,
   ⟨p.rzrInLiquidityPool, eth', p.k⟩)

/-- `swapRzrForEth(rzrSpent)`: subtracts `rzrSpent` from the RZR reserve,
computes `newRzrInPool = k / eth` and the output amount, and (as in the
source) leaves the ETH reserve and `k` untouched. -/
def LiquidityPool.swapRzrForEth (p : LiquidityPool) (rzrSpent : ℚ) :
    SwapRzrForEthResult × LiquidityPool :=
  let rzr' := p.rzrInLiquidityPool - rzrSpent
  let newRzrInPool := p.k / p.ethInLiquidityPool
  let amountOut := newRzrInPool - rzr'
  (⟨amountOut, p.ethInLiquidityPool / rzr'⟩,
   ⟨rzr', p.ethInLiquidityPool, p.k⟩)

/-- `getRzrPrice()`: spot price `eth / rzr`. -/
def LiquidityPool.getRzrPrice (p : LiquidityPool) : ℚ :=
  p.ethInLiquidityPool / p.rzrInLiquidityPool

/-- `getRzrPriceInUsd(ethPrice)`: spot price times the external ETH price. -/
def LiquidityPool.getRzrPriceInUsd (p : LiquidityPool) (ethPrice : ℚ) : ℚ :=
  p.getRzrPrice * ethPrice

/-- `addLiquidity(ethAmount, rzrAmount)`: adds to both reserves and
recomputes `k` as the product of the new reserves. -/
def LiquidityPool.addLiquidity (p : LiquidityPool) (ethAmount rzrAmount : ℚ) :
    LiquidityPool :=
  let eth' := p.ethInLiquidityPool + ethAmount
  let rzr' := p.rzrInLiquidityPool + rzrAmount
  ⟨rzr', eth', eth' * rzr'⟩

/-- `removeLiquidity(ethAmount, rzrAmount)`: subtracts from both reserves
and recomputes `k`. -/
def LiquidityPool.removeLiquidity (p : LiquidityPool) (ethAmount rzrAmount : ℚ) :
    LiquidityPool :=
  let eth' := p.ethInLiquidityPool - ethAmount
  let rzr' := p.rzrInLiquidityPool - rzrAmount
  ⟨rzr', eth', eth' * rzr'⟩

/-- Modelled from the spec: `clone()` is called on `LiquidityPool` by
`minHealthUnderScenario` (and `index.ts`) but its body is not under `src`;
the spec describes it as an independent value copy with no aliasing to the
live pool.  On immutable Lean values the copy is the value itself; the
store-level model below makes the freshness of the copy explicit. -/
def LiquidityPool.clone (p : LiquidityPool) : LiquidityPool := p

/-! ## Positions and the health calculator (`src/helpers/positionMetrics.ts`) -/

/-- `IPosition` from `src/interfaces.ts`. -/
structure IPosition where
  collateralRzr : ℚ
  debtUsdc : ℚ
  lltv : ℚ
  ethExposure : ℚ
  ethPrice : ℚ
deriving DecidableEq

/-- `IPositionWithLiquidation`: the position fields spread into the result,
plus the derived metrics.  The derived fields live in `JsNum` because the
divisions may produce `Infinity` or `NaN`. -/
structure IPositionWithLiquidation where
  collateralRzr : ℚ
  debtUsdc : ℚ
  lltv : ℚ
  ethExposure : ℚ
  ethPrice : ℚ
  ltv : JsNum
  healthScore : JsNum
  rzrLiquidationPrice : JsNum
deriving DecidableEq

/-- `computePositionMetrics(pool, ethMktPrice, p)`:
`ltv = debt / (collateralRzr * rzrUsd)`, `healthScore = lltv / ltv`,
`rzrLiquidationPrice = debt / (lltv * collateralRzr)`, with IEEE division
semantics at the zero denominators. -/
def computePositionMetrics (pool : LiquidityPool) (ethMktPrice : ℚ)
    (p : IPosition) : IPositionWithLiquidation :=
  let rzrUsd := pool.getRzrPriceInUsd ethMktPrice
  let collateralUsd := p.collateralRzr * rzrUsd
  let ltv := JsNum.div (.fin p.debtUsdc) (.fin collateralUsd)
  let healthScore := JsNum.div (.fin p.lltv) ltv
  let rzrLiquidationPrice :=
    JsNum.div (.fin p.debtUsdc) (.fin (p.lltv * p.collateralRzr))
  ⟨p.collateralRzr, p.debtUsdc, p.lltv, p.ethExposure, p.ethPrice,
   ltv, healthScore, rzrLiquidationPrice⟩

/-! ## The scenario evaluator (`src/helpers/scenarioChecker.ts`) -/

/-- `StressScenario`. -/
structure StressScenario where
  name : String
  rzrSold : ℚ
  ethPriceMultiplier : ℚ
  warningOnly : Bool
deriving DecidableEq

/-- Return value of `minHealthUnderScenario`. -/
structure MinHealthResult where
  minHealth : JsNum
  metrics : List IPositionWithLiquidation
  poolAfter : LiquidityPool
  shockedEth : ℚ
deriving DecidableEq

/-- `minHealthUnderScenario`: clone the starting pool; for a positive new
borrow, deepen the clone with paired liquidity and append the new position
to a copy of the positions list; apply the market sell to the clone; shock
the external ETH price; compute metrics for every position against the
stressed clone and fold their health scores with `Math.min` starting from
`+Infinity`. -/
def minHealthUnderScenario (borrowUsdc : ℚ) (scenario : StressScenario)
    (positions : List IPosition) (ethSpot ltvForNew lltvForNew : ℚ)
    (poolAtStart : LiquidityPool) : MinHealthResult :=
  let pool := poolAtStart.clone
  let allPositions := positions
  let step2 :=
    if 0 < borrowUsdc then
      let rzrUsdSpot := pool.getRzrPriceInUsd ethSpot
      let rzrAddedAsCollateral := borrowUsdc / (ltvForNew * rzrUsdSpot)
      let newEthExposure := borrowUsdc / ethSpot
      let newRzrMintedForLP := borrowUsdc / rzrUsdSpot
      (pool.addLiquidity newEthExposure newRzrMintedForLP,
       allPositions ++
         [⟨rzrAddedAsCollateral, borrowUsdc, lltvForNew, newEthExposure, ethSpot⟩])
    else (pool, allPositions)
  let pool := step2.1
  let allPositions := step2.2
  let pool :=
    if 0 < scenario.rzrSold then (pool.swapRzrForEth scenario.rzrSold).2 else pool
  let shockedEth := ethSpot * scenario.ethPriceMultiplier
  let metrics := allPositions.map (fun p => computePositionMetrics pool shockedEth p)
  let minHealth := metrics.foldl (fun m p => JsNum.min m p.healthScore) (.inf true)
  ⟨minHealth, metrics, pool, shockedEth⟩

/-! ## The safety gate (`isBorrowSafeAcrossScenarios`)

The implementation file `checkBorrow.ts` ships inside
`src/helpers/positionMetrics.test.ts` in this snapshot: iterate scenarios
in order, skip `warningOnly` ones, evaluate the rest, and return `false`
at the first one whose `minHealth` fails `>= 1`. -/

def isBorrowSafeAcrossScenarios (borrowUsdc : ℚ)
    (scenarios : List StressScenario) (positions : List IPosition)
    (ethSpot : ℚ) (poolAtStart : LiquidityPool)
    (ltvForNew liquidationThreshold : ℚ) : Bool :=
  match scenarios with
  | [] => true
  | s :: rest =>
      if s.warningOnly then
        isBorrowSafeAcrossScenarios borrowUsdc rest positions ethSpot
          poolAtStart ltvForNew liquidationThreshold
      else if !(JsNum.ge
          (minHealthUnderScenario borrowUsdc s positions ethSpot ltvForNew
            liquidationThreshold poolAtStart).minHealth (.fin 1)) then
        false
      else
        isBorrowSafeAcrossScenarios borrowUsdc rest positions ethSpot
          poolAtStart ltvForNew liquidationThreshold

/-- Instrumentation of the gate: the list of scenarios it actually passes
to the scenario evaluator, in order.  A `warningOnly` scenario is skipped
without being evaluated; a failing evaluation stops the iteration. -/
def gateEvaluatedScenarios (borrowUsdc : ℚ)
    (scenarios : List StressScenario) (positions : List IPosition)
    (ethSpot : ℚ) (poolAtStart : LiquidityPool)
    (ltvForNew liquidationThreshold : ℚ) : List StressScenario :=
  match scenarios with
  | [] => []
  | s :: rest =>
      if s.warningOnly then
        gateEvaluatedScenarios borrowUsdc rest positions ethSpot
          poolAtStart ltvForNew liquidationThreshold
      else if !(JsNum.ge
          (minHealthUnderScenario borrowUsdc s positions ethSpot ltvForNew
            liquidationThreshold poolAtStart).minHealth (.fin 1)) then
        [s]
      else
        s :: gateEvaluatedScenarios borrowUsdc rest positions ethSpot
          poolAtStart ltvForNew liquidationThreshold

/-! ## The borrow solver (`src/helpers/solveBorrow.ts`) -/

/-- State of the inner binary search: `lo`, `hi` and the best safe borrow
found at the current LTV. -/
structure BSearchState where
  lo : ℚ
  hi : ℚ
  best : ℚ
deriving DecidableEq

/-- The inner `while (hi - lo > tolerance)` loop of `solveMaxBorrow`, with
an explicit fuel parameter (the source loop is unbounded: it has no
iteration cap).  `ok` is the safety gate at the current LTV. -/
def bsearchGo (ok : ℚ → Bool) (tolerance : ℚ) : ℕ → BSearchState → BSearchState
  | 0, s => s
  | fuel + 1, s =>
      if tolerance < s.hi - s.lo then
        let mid := (s.lo + s.hi) / 2
        if ok mid then bsearchGo ok tolerance fuel ⟨mid, s.hi, mid⟩
        else bsearchGo ok tolerance fuel ⟨s.lo, mid, s.best⟩
      else s

/-- The candidate LTVs visited by the outer
`for (let ltv = min; ltv <= max; ltv += 0.05)` loop of `solveMaxBorrow`,
under exact rational arithmetic, with explicit fuel. -/
def sweepLtvCandidates : ℕ → ℚ → ℚ → List ℚ
  | 0, _, _ => []
  | fuel + 1, ltv, ltvMax =>
      if ltv ≤ ltvMax then ltv :: sweepLtvCandidates fuel (ltv + 1 / 20) ltvMax
      else []

/-- Options record of `solveMaxBorrow`. -/
structure SolveOptions where
  tolerance : ℚ
  supplyCap : ℚ
  positions : List IPosition
  ethSpot : ℚ
  poolAtStart : LiquidityPool
  ltvMin : ℚ
  ltvMax : ℚ
  liquidationThreshold : ℚ

/-- Result record of `solveMaxBorrow`; `diagnostics` pairs each scenario
name and warning flag with its evaluation at the found optimum. -/
structure SolveResult where
  maxSafeBorrowUsdc : ℤ
  optimalLtv : ℚ
  diagnostics : List (String × Bool × MinHealthResult)

/-- The outer LTV sweep of `solveMaxBorrow`, accumulating
`(bestAmount, bestLtv)`: skip an LTV whose gate already fails at borrow 0,
otherwise binary-search `[0, cap]` and keep the globally best amount
(strict improvement, so the first LTV wins ties). -/
def solveSweepGo (scenarios : List StressScenario) (options : SolveOptions)
    (bsFuel : ℕ) : ℕ → ℚ → ℚ × ℚ → ℚ × ℚ
  | 0, _, acc => acc
  | fuel + 1, ltv, acc =>
      if ltv ≤ options.ltvMax then
        let acc' :=
          if !(isBorrowSafeAcrossScenarios 0 scenarios options.positions
              options.ethSpot options.poolAtStart ltv
              options.liquidationThreshold) then acc
          else
            let run := bsearchGo
              (fun mid => isBorrowSafeAcrossScenarios mid scenarios
                options.positions options.ethSpot options.poolAtStart ltv
                options.liquidationThreshold)
              options.tolerance bsFuel ⟨0, options.supplyCap, 0⟩
            if acc.1 < run.best then (run.best, ltv) else acc
        solveSweepGo scenarios options bsFuel fuel (ltv + 1 / 20) acc'
      else acc

/-- `solveMaxBorrow(scenarios, options)`: run the sweep from
`(bestAmount, bestLtv) = (0, ltvMin)`, then floor the best amount and
recompute diagnostics for every scenario (warnings included) at the found
optimum. -/
def solveMaxBorrow (scenarios : List StressScenario) (options : SolveOptions)
    (sweepFuel bsFuel : ℕ) : SolveResult :=
  let best := solveSweepGo scenarios options bsFuel sweepFuel options.ltvMin
    (0, options.ltvMin)
  let diag := scenarios.map (fun s =>
    (s.name, s.warningOnly,
     minHealthUnderScenario best.1 s options.positions options.ethSpot
       best.2 options.liquidationThreshold options.poolAtStart))
  ⟨⌊best.1⌋, best.2, diag⟩

/-! ## Exact binary64 model of the LTV sweep accumulation

The outer loop of `solveMaxBorrow` steps with `ltv += 0.05` in IEEE
binary64.  Every number that loop can reach from the configured ranges lies
in `[2⁻⁵, 1)`, so we represent a double `x` exactly by the natural number
`x * 2 ^ 60` and model one correctly rounded (round-to-nearest, ties to
even) addition on that representation.  At this scale a natural number `n`
is a double exactly when its bit length is at most 53 or it is a multiple
of the unit in the last place `2 ^ (bitlength n - 53)`. -/

/-- Bit length of a natural number (fuel-based so that the kernel can
evaluate it; 80 bits cover every value the sweep model touches). -/
def bitLenGo : ℕ → ℕ → ℕ
  | 0, _ => 0
  | fuel + 1, n => if n = 0 then 0 else bitLenGo fuel (n / 2) + 1

def bitLen (n : ℕ) : ℕ := bitLenGo 80 n

/-- Round a (positive) scaled value to the nearest multiple of `u`, ties to
even. -/
def roundMultHalfEven (n u : ℕ) : ℕ :=
  let q := n / u
  let r := n % u
  if 2 * r < u then q * u
  else if u < 2 * r then (q + 1) * u
  else if q % 2 = 0 then q * u else (q + 1) * u

/-- Round a value at scale `2 ^ 60` to the nearest binary64 double, ties to
even (valid for the normal positive range handled here). -/
def fl60 (n : ℕ) : ℕ :=
  if bitLen n ≤ 53 then n else roundMultHalfEven n (2 ^ (bitLen n - 53))

/-- One binary64 `+=` at scale `2 ^ 60`: exact sum, then round. -/
def fladd60 (a b : ℕ) : ℕ := fl60 (a + b)

/-- The binary64 double nearest to the literal `0.05`, at scale `2 ^ 60`. -/
def step60 : ℕ := 57646075230342352

/-- The binary64 double nearest to the literal `0.3`, at scale `2 ^ 60`. -/
def ltvMin60 : ℕ := 345876451382054080

/-- The binary64 double nearest to the literal `0.8`, at scale `2 ^ 60`. -/
def ltvMax60 : ℕ := 922337203685477632

/-- The candidate LTVs visited by
`for (let ltv = min; ltv <= max; ltv += 0.05)` under binary64 arithmetic,
at scale `2 ^ 60`. -/
def sweepLtv64 : ℕ → ℕ → ℕ → List ℕ
  | 0, _, _ => []
  | fuel + 1, ltv, ltvMax =>
      if ltv ≤ ltvMax then ltv :: sweepLtv64 fuel (fladd60 ltv step60) ltvMax
      else []

/-! ## Exact binary64 model of the inner binary search

The same scale-`2 ^ 60` representation models the arithmetic of the inner
`while (hi - lo > tolerance)` loop of `solveMaxBorrow`: `(lo + hi) / 2` in
binary64 is one correctly rounded addition followed by an exact halving
(exact whenever the rounded sum has more than 53 bits at this scale, i.e.
for the values `≥ 2⁻⁷` reached below).  Natural-number subtraction agrees
with the float comparison `hi - lo > tolerance` because the loop keeps
`lo ≤ hi`. -/

/-- State of the inner binary search at scale `2 ^ 60`. -/
structure BSearchState64 where
  lo : ℕ
  hi : ℕ
  best : ℕ
deriving DecidableEq

/-- The binary64 midpoint `(lo + hi) / 2` at scale `2 ^ 60`: round the
sum, then halve exactly. -/
def midF64 (lo hi : ℕ) : ℕ := fl60 (lo + hi) / 2

/-- The inner `while (hi - lo > tolerance)` loop of `solveMaxBorrow`
under binary64 arithmetic at scale `2 ^ 60`, with an explicit fuel
parameter (the source loop is unbounded: it has no iteration cap). -/
def bsearchGo64 (ok : ℕ → Bool) (tolerance : ℕ) :
    ℕ → BSearchState64 → BSearchState64
  | 0, s => s
  | fuel + 1, s =>
      if tolerance < s.hi - s.lo then
        let mid := midF64 s.lo s.hi
        if ok mid then bsearchGo64 ok tolerance fuel ⟨mid, s.hi, mid⟩
        else bsearchGo64 ok tolerance fuel ⟨s.lo, mid, s.best⟩
      else s

/-- The double `0.5` at scale `2 ^ 60` (`2 ^ 59`). -/
def half60 : ℕ := 576460752303423488

/-- A monotone threshold gate, as the safety gate is for a monotone
configuration: a borrow is safe exactly when it is at most `0.5` (at
scale `2 ^ 60`). -/
def thresholdGate60 : ℕ → Bool := fun mid => decide (mid ≤ half60)

/-- The state the search reaches from `[0, 1]` under `thresholdGate60`
with tolerance 0 after 53 binary64 iterations: `lo = 0.5` and
`hi = 0.5 + 2⁻⁵³` are adjacent doubles straddling the threshold, the
midpoint `(lo + hi) / 2` rounds (ties to even) back to `lo`, the gate
accepts it, and the state maps to itself. -/
def stuckState60 : BSearchState64 :=
  ⟨576460752303423488, 576460752303423616, 576460752303423488⟩

/-- Counterexample statement for C8: with tolerance 0, interval
`[0, 1]` (scale `2 ^ 60`) and the threshold gate, the loop guard
`tolerance < hi - lo` holds after every number of binary64 iterations,
so the `while` loop of `solveMaxBorrow` never terminates and nothing
reports a NonConvergence failure. -/
def bsearch64NeverExits : Prop :=
  ∀ n : ℕ,
    0 < (bsearchGo64 thresholdGate60 0 n ⟨0, 1152921504606846976, 0⟩).hi -
      (bsearchGo64 thresholdGate60 0 n ⟨0, 1152921504606846976, 0⟩).lo

/-! ## Store model: object references for the purity claim

JavaScript objects are references into a heap.  To state that
`minHealthUnderScenario` never mutates the caller's pool object nor the
input positions array we model a store of pool cells and of positions-array
cells, addressed by numeric references.  Each method call in the source is
applied to the reference the source names: every mutation targets the
fresh clone of the pool or the fresh copy `[...positions]` of the array. -/

structure Store where
  pools : List LiquidityPool
  arrays : List (List IPosition)

def Store.getPool (st : Store) (r : ℕ) : LiquidityPool :=
  (st.pools.get? r).getD ⟨0, 0, 0⟩

def Store.setPool (st : Store) (r : ℕ) (p : LiquidityPool) : Store :=
  { st with pools := st.pools.set r p }

def Store.allocPool (st : Store) (p : LiquidityPool) : ℕ × Store :=
  (st.pools.length, { st with pools := st.pools ++ [p] })

def Store.getArray (st : Store) (r : ℕ) : List IPosition :=
  (st.arrays.get? r).getD []

def Store.setArray (st : Store) (r : ℕ) (a : List IPosition) : Store :=
  { st with arrays := st.arrays.set r a }

def Store.allocArray (st : Store) (a : List IPosition) : ℕ × Store :=
  (st.arrays.length, { st with arrays := st.arrays ++ [a] })

/-- Modelled from the spec: `clone()` (body not under `src`) returns an
independent value copy — here, a fresh pool cell holding the receiver's
current value, with no aliasing to the live pool. -/
def Store.clonePool (st : Store) (r : ℕ) : ℕ × Store :=
  st.allocPool (st.getPool r)

/-- `minHealthUnderScenario` at store level: the caller passes references
to its live pool and its positions array; `clone()` and the array copy
`[...positions]` allocate fresh cells, and every subsequent mutation
(`addLiquidity`, `push`, `swapRzrForEth`) targets those fresh cells, as in
the source. -/
def minHealthUnderScenarioStore (st0 : Store) (borrowUsdc : ℚ)
    (scenario : StressScenario) (positionsRef : ℕ)
    (ethSpot ltvForNew lltvForNew : ℚ) (poolRef : ℕ) :
    MinHealthResult × Store :=
  let c1 := st0.clonePool poolRef
  let pool := c1.1
  let st1 := c1.2
  let c2 := st1.allocArray (st1.getArray positionsRef)
  let allPositions := c2.1
  let st2 := c2.2
  let st3 :=
    if 0 < borrowUsdc then
      let rzrUsdSpot := (st2.getPool pool).getRzrPriceInUsd ethSpot
      let rzrAddedAsCollateral := borrowUsdc / (ltvForNew * rzrUsdSpot)
      let newEthExposure := borrowUsdc / ethSpot
      let newRzrMintedForLP := borrowUsdc / rzrUsdSpot
      let stA := st2.setPool pool
        ((st2.getPool pool).addLiquidity newEthExposure newRzrMintedForLP)
      stA.setArray allPositions (stA.getArray allPositions ++
        [⟨rzrAddedAsCollateral, borrowUsdc, lltvForNew, newEthExposure, ethSpot⟩])
    else st2
  let st4 :=
    if 0 < scenario.rzrSold then
      st3.setPool pool ((st3.getPool pool).swapRzrForEth scenario.rzrSold).2
    else st3
  let shockedEth := ethSpot * scenario.ethPriceMultiplier
  let metrics := (st4.getArray allPositions).map
    (fun p => computePositionMetrics (st4.getPool pool) shockedEth p)
  let minHealth := metrics.foldl (fun m p => JsNum.min m p.healthScore) (.inf true)
  (⟨minHealth, metrics, st4.getPool pool, shockedEth⟩, st4)

/-! ## Theorems -/

/-- C1.  The claim states that both swap directions preserve the
constant product (each updates one reserve by the input amount and solves
the invariant for the other reserve, setting it).  The code does not: on
the pool `(rzr = 1000, eth = 100)` with `k = 100000`, `swapRzrForEth(50)`
leaves reserves `(950, 100)` whose product `95000` differs from the
pre-swap `k`, and `swapEthForRzr(50)` leaves reserves `(1000, 50)` whose
product `50000` differs from the pre-swap `k`: the solved value
`newRzrInPool` is computed and discarded in both directions. -/
theorem swap_breaks_constant_product :
    ((LiquidityPool.make 1000 100).swapRzrForEth 50).2.rzrInLiquidityPool = 950 ∧
    ((LiquidityPool.make 1000 100).swapRzrForEth 50).2.ethInLiquidityPool = 100 ∧
    ((LiquidityPool.make 1000 100).swapRzrForEth 50).2.rzrInLiquidityPool *
        ((LiquidityPool.make 1000 100).swapRzrForEth 50).2.ethInLiquidityPool ≠
      (LiquidityPool.make 1000 100).k ∧
    ((LiquidityPool.make 1000 100).swapEthForRzr 50).2.rzrInLiquidityPool = 1000 ∧
    ((LiquidityPool.make 1000 100).swapEthForRzr 50).2.ethInLiquidityPool = 50 ∧
    ((LiquidityPool.make 1000 100).swapEthForRzr 50).2.rzrInLiquidityPool *
        ((LiquidityPool.make 1000 100).swapEthForRzr 50).2.ethInLiquidityPool ≠
      (LiquidityPool.make 1000 100).k := by
  refine ⟨?_, ?_, ?_, ?_, ?_, ?_⟩ <;>
    norm_num [LiquidityPool.make, LiquidityPool.swapRzrForEth,
      LiquidityPool.swapEthForRzr]

/-- C3.  The claim (and the repository's own test
`scenarioChecker.test.ts`, which expects `rzrReserve = 1050` after selling
50) gives the post-sell price `(100/1050)·2000 = 4000/21 ≈ 190.48`.  The
code subtracts the sold amount instead, leaving reserves `(950, 100)`, so
the evaluated price is `(100/950)·2000 = 4000/19 ≈ 210.53` and the health
score is the closed form `lltv / (debt / (collateral · price))` at that
price (`64/57`), not at the claimed price (`64/63`). -/
theorem sell_fifty_price_code_value :
    (minHealthUnderScenario 0 ⟨"Sell 50", 50, 1, false⟩
        [⟨100, 15000, 4/5, 5, 2000⟩] 2000 (2/5) (3/5)
        (LiquidityPool.make 1000 100)).poolAfter.getRzrPriceInUsd 2000 =
      4000 / 19 ∧
    (4000 / 19 : ℚ) ≠ 4000 / 21 ∧
    (minHealthUnderScenario 0 ⟨"Sell 50", 50, 1, false⟩
        [⟨100, 15000, 4/5, 5, 2000⟩] 2000 (2/5) (3/5)
        (LiquidityPool.make 1000 100)).minHealth =
      .fin ((4/5) / (15000 / (100 * (4000 / 19)))) ∧
    (minHealthUnderScenario 0 ⟨"Sell 50", 50, 1, false⟩
        [⟨100, 15000, 4/5, 5, 2000⟩] 2000 (2/5) (3/5)
        (LiquidityPool.make 1000 100)).minHealth ≠
      .fin ((4/5) / (15000 / (100 * (4000 / 21)))) := by
  refine ⟨?_, by norm_num, ?_, ?_⟩ <;>
    norm_num [minHealthUnderScenario, computePositionMetrics,
      LiquidityPool.make, LiquidityPool.clone, LiquidityPool.swapRzrForEth,
      LiquidityPool.getRzrPriceInUsd, LiquidityPool.getRzrPrice,
      JsNum.div, JsNum.min]

/-- C6.  Degenerate inputs resolve to sentinel values: under the data
model's invariants (positive reserves, positive external price, positive
liquidation LTV), a position with zero debt and positive collateral value
gets `ltv = 0`, `healthScore = +Infinity`, `liquidationPrice = 0`; a
position with zero collateral value and positive debt gets
`ltv = +Infinity`, `healthScore = 0`, `liquidationPrice = +Infinity`. -/
theorem computePositionMetrics_sentinel_values (pool : LiquidityPool)
    (ethMktPrice : ℚ) (p : IPosition)
    (hrzr : 0 < pool.rzrInLiquidityPool) (heth : 0 < pool.ethInLiquidityPool)
    (hmkt : 0 < ethMktPrice) (hlltv : 0 < p.lltv) :
    (p.debtUsdc = 0 →
      0 < p.collateralRzr * pool.getRzrPriceInUsd ethMktPrice →
      (computePositionMetrics pool ethMktPrice p).ltv = .fin 0 ∧
      (computePositionMetrics pool ethMktPrice p).healthScore = .inf true ∧
      (computePositionMetrics pool ethMktPrice p).rzrLiquidationPrice = .fin 0) ∧
    (p.collateralRzr * pool.getRzrPriceInUsd ethMktPrice = 0 →
      0 < p.debtUsdc →
      (computePositionMetrics pool ethMktPrice p).ltv = .inf true ∧
      (computePositionMetrics pool ethMktPrice p).healthScore = .fin 0 ∧
      (computePositionMetrics pool ethMktPrice p).rzrLiquidationPrice = .inf true) := by
  have husd : 0 < pool.getRzrPriceInUsd ethMktPrice := by
    unfold LiquidityPool.getRzrPriceInUsd LiquidityPool.getRzrPrice
    positivity
  constructor
  · intro hd hcv
    have hcoll : 0 < p.collateralRzr := by
      by_contra hc
      push_neg at hc
      nlinarith
    have hcv' : p.collateralRzr * pool.getRzrPriceInUsd ethMktPrice ≠ 0 := ne_of_gt hcv
    have hden : p.lltv * p.collateralRzr ≠ 0 := by positivity
    refine ⟨?_, ?_, ?_⟩ <;>
      simp [computePositionMetrics, JsNum.div, hd, hcv', hden, hlltv,
        hlltv.ne', le_of_lt hlltv]
  · intro hcv hd
    have hcoll : p.collateralRzr = 0 := by
      rcases mul_eq_zero.1 hcv with h | h
      · exact h
      · exact absurd h husd.ne'
    refine ⟨?_, ?_, ?_⟩ <;>
      simp [computePositionMetrics, JsNum.div, hcoll, hd, hd.ne', hd.le]

/-- Witness for C6: on the pool `(1000, 100)` at external price 2000, the
zero-debt position `(collateral 100, lltv 4/5)` gets the risk-free
sentinels and the zero-collateral position `(debt 100, lltv 4/5)` gets the
certain-liquidation sentinels. -/
theorem computePositionMetrics_sentinel_values_witness :
    ((computePositionMetrics (LiquidityPool.make 1000 100) 2000
        ⟨100, 0, 4/5, 0, 0⟩).ltv = .fin 0 ∧
      (computePositionMetrics (LiquidityPool.make 1000 100) 2000
        ⟨100, 0, 4/5, 0, 0⟩).healthScore = .inf true ∧
      (computePositionMetrics (LiquidityPool.make 1000 100) 2000
        ⟨100, 0, 4/5, 0, 0⟩).rzrLiquidationPrice = .fin 0) ∧
    ((computePositionMetrics (LiquidityPool.make 1000 100) 2000
        ⟨0, 100, 4/5, 0, 0⟩).ltv = .inf true ∧
      (computePositionMetrics (LiquidityPool.make 1000 100) 2000
        ⟨0, 100, 4/5, 0, 0⟩).healthScore = .fin 0 ∧
      (computePositionMetrics (LiquidityPool.make 1000 100) 2000
        ⟨0, 100, 4/5, 0, 0⟩).rzrLiquidationPrice = .inf true) :=
  ⟨(computePositionMetrics_sentinel_values (LiquidityPool.make 1000 100) 2000
      ⟨100, 0, 4/5, 0, 0⟩ (by norm_num [LiquidityPool.make])
      (by norm_num [LiquidityPool.make]) (by norm_num) (by norm_num)).1
    (by norm_num)
    (by norm_num [LiquidityPool.getRzrPriceInUsd, LiquidityPool.getRzrPrice,
      LiquidityPool.make]),
   (computePositionMetrics_sentinel_values (LiquidityPool.make 1000 100) 2000
      ⟨0, 100, 4/5, 0, 0⟩ (by norm_num [LiquidityPool.make])
      (by norm_num [LiquidityPool.make]) (by norm_num) (by norm_num)).2
    (by norm_num) (by norm_num)⟩

/-- C7.  Adding liquidity in the exact ratio of the current spot price
(`ethAmount = spotPrice · rzrAmount`) leaves the spot price
`eth / rzr` unchanged while strictly increasing both reserves; the paired
deposit of `minHealthUnderScenario` for a positive borrow —
`borrow / ethSpot` of ETH paired with
`borrow / getRzrPriceInUsd(ethSpot)` of freshly minted RZR — is in that
exact ratio, so the clone's spot price after `addLiquidity` equals the
starting pool's spot price. -/
theorem addLiquidity_spot_price_neutral (p : LiquidityPool)
    (hrzr : 0 < p.rzrInLiquidityPool) (heth : 0 < p.ethInLiquidityPool)
    (ethAmount rzrAmount : ℚ) (hra : 0 < rzrAmount)
    (hratio : ethAmount = p.getRzrPrice * rzrAmount)
    (borrowUsdc ethSpot : ℚ) (hb : 0 < borrowUsdc) (hs : 0 < ethSpot) :
    (p.addLiquidity ethAmount rzrAmount).getRzrPrice = p.getRzrPrice ∧
    p.rzrInLiquidityPool <
      (p.addLiquidity ethAmount rzrAmount).rzrInLiquidityPool ∧
    p.ethInLiquidityPool <
      (p.addLiquidity ethAmount rzrAmount).ethInLiquidityPool ∧
    borrowUsdc / ethSpot =
      p.clone.getRzrPrice * (borrowUsdc / p.clone.getRzrPriceInUsd ethSpot) ∧
    (p.clone.addLiquidity (borrowUsdc / ethSpot)
        (borrowUsdc / p.clone.getRzrPriceInUsd ethSpot)).getRzrPrice =
      p.getRzrPrice := by
  have hprice : 0 < p.getRzrPrice := by
    unfold LiquidityPool.getRzrPrice; positivity
  have hea : 0 < ethAmount := by rw [hratio]; positivity
  have neutral : ∀ e r : ℚ, 0 < r → e = p.getRzrPrice * r →
      (p.addLiquidity e r).getRzrPrice = p.getRzrPrice := by
    intro e r hr he
    unfold LiquidityPool.addLiquidity LiquidityPool.getRzrPrice at *
    subst he
    rw [div_eq_div_iff (by positivity) (by positivity)]
    field_simp
    ring
  refine ⟨neutral ethAmount rzrAmount hra hratio, ?_, ?_, ?_, ?_⟩
  · simp [LiquidityPool.addLiquidity, hra]
  · simp [LiquidityPool.addLiquidity, hea]
  · unfold LiquidityPool.clone LiquidityPool.getRzrPriceInUsd
      LiquidityPool.getRzrPrice
    field_simp
    ring
  · have hmint : 0 < borrowUsdc / p.clone.getRzrPriceInUsd ethSpot := by
      unfold LiquidityPool.clone LiquidityPool.getRzrPriceInUsd
        LiquidityPool.getRzrPrice
      positivity
    exact neutral _ _ hmint (by
      unfold LiquidityPool.clone LiquidityPool.getRzrPriceInUsd
        LiquidityPool.getRzrPrice at *
      field_simp
      ring)

/-- Witness for C7: on the pool `(1000, 100)` (spot price `1/10`), adding
`(1 ETH, 10 RZR)` — and likewise the paired deposit for borrow 8000 at
external ETH price 2000 — preserves the spot price and grows both
reserves. -/
theorem addLiquidity_spot_price_neutral_witness :
    ((LiquidityPool.make 1000 100).addLiquidity 1 10).getRzrPrice =
      (LiquidityPool.make 1000 100).getRzrPrice ∧
    (LiquidityPool.make 1000 100).rzrInLiquidityPool <
      ((LiquidityPool.make 1000 100).addLiquidity 1 10).rzrInLiquidityPool ∧
    (LiquidityPool.make 1000 100).ethInLiquidityPool <
      ((LiquidityPool.make 1000 100).addLiquidity 1 10).ethInLiquidityPool ∧
    (8000 : ℚ) / 2000 =
      (LiquidityPool.make 1000 100).clone.getRzrPrice *
        (8000 / (LiquidityPool.make 1000 100).clone.getRzrPriceInUsd 2000) ∧
    ((LiquidityPool.make 1000 100).clone.addLiquidity (8000 / 2000)
        (8000 / (LiquidityPool.make 1000 100).clone.getRzrPriceInUsd 2000)).getRzrPrice =
      (LiquidityPool.make 1000 100).getRzrPrice :=
  addLiquidity_spot_price_neutral (LiquidityPool.make 1000 100)
    (by norm_num [LiquidityPool.make]) (by norm_num [LiquidityPool.make])
    1 10 (by norm_num)
    (by norm_num [LiquidityPool.make, LiquidityPool.getRzrPrice])
    8000 2000 (by norm_num) (by norm_num)

/-- Helper: the gate returns `true` exactly when every non-warning scenario
evaluates to a `minHealth` passing the `>= 1` comparison. -/
lemma isBorrowSafeAcrossScenarios_true_iff (borrowUsdc : ℚ)
    (scenarios : List StressScenario) (positions : List IPosition)
    (ethSpot : ℚ) (poolAtStart : LiquidityPool)
    (ltvForNew liquidationThreshold : ℚ) :
    isBorrowSafeAcrossScenarios borrowUsdc scenarios positions ethSpot
        poolAtStart ltvForNew liquidationThreshold = true ↔
      ∀ s ∈ scenarios, s.warningOnly = false →
        JsNum.ge (minHealthUnderScenario borrowUsdc s positions ethSpot
          ltvForNew liquidationThreshold poolAtStart).minHealth (.fin 1) = true := by
  induction scenarios with
  | nil => simp [isBorrowSafeAcrossScenarios]
  | cons s rest ih =>
    rw [isBorrowSafeAcrossScenarios]
    by_cases hw : s.warningOnly
    · simp [hw, ih]
    · by_cases hp : JsNum.ge (minHealthUnderScenario borrowUsdc s positions
          ethSpot ltvForNew liquidationThreshold poolAtStart).minHealth
          (.fin 1) = true
      · simp [hw, hp, ih]
      · simp only [Bool.not_eq_true] at hp
        simp [hw, hp]

/-- Helper: every scenario the gate actually evaluates is a non-warning
scenario. -/
lemma gateEvaluatedScenarios_no_warning (borrowUsdc : ℚ)
    (scenarios : List StressScenario) (positions : List IPosition)
    (ethSpot : ℚ) (poolAtStart : LiquidityPool)
    (ltvForNew liquidationThreshold : ℚ) :
    ∀ s ∈ gateEvaluatedScenarios borrowUsdc scenarios positions ethSpot
        poolAtStart ltvForNew liquidationThreshold, s.warningOnly = false := by
  induction scenarios with
  | nil => simp [gateEvaluatedScenarios]
  | cons s rest ih =>
    rw [gateEvaluatedScenarios]
    by_cases hw : s.warningOnly
    · simpa [hw] using ih
    · have hw' : s.warningOnly = false := by simpa using hw
      by_cases hp : JsNum.ge (minHealthUnderScenario borrowUsdc s positions
          ethSpot ltvForNew liquidationThreshold poolAtStart).minHealth
          (.fin 1) = true
      · intro t ht
        rw [if_neg hw, if_neg (by simp [hp])] at ht
        rcases List.mem_cons.1 ht with h | h
        · rw [h]; exact hw'
        · exact ih t h
      · intro t ht
        rw [Bool.not_eq_true] at hp
        rw [if_neg hw, if_pos (by simp [hp])] at ht
        rw [List.mem_singleton.1 ht]
        exact hw'

/-- Helper: the scenarios the gate evaluates are exactly the passing
prefix of the non-warning scenarios followed by the first failing
non-warning scenario, if any — i.e. iteration stops at the first failure
and later scenarios are never evaluated. -/
lemma gateEvaluatedScenarios_stops_at_failure (borrowUsdc : ℚ)
    (scenarios : List StressScenario) (positions : List IPosition)
    (ethSpot : ℚ) (poolAtStart : LiquidityPool)
    (ltvForNew liquidationThreshold : ℚ) :
    gateEvaluatedScenarios borrowUsdc scenarios positions ethSpot
        poolAtStart ltvForNew liquidationThreshold =
      (scenarios.filter (fun s => !s.warningOnly)).takeWhile
        (fun s => JsNum.ge (minHealthUnderScenario borrowUsdc s positions
          ethSpot ltvForNew liquidationThreshold poolAtStart).minHealth
          (.fin 1)) ++
      ((scenarios.filter (fun s => !s.warningOnly)).dropWhile
        (fun s => JsNum.ge (minHealthUnderScenario borrowUsdc s positions
          ethSpot ltvForNew liquidationThreshold poolAtStart).minHealth
          (.fin 1))).take 1 := by
  induction scenarios with
  | nil => simp [gateEvaluatedScenarios]
  | cons s rest ih =>
    rw [gateEvaluatedScenarios]
    by_cases hw : s.warningOnly
    · simp only [hw, if_true, List.filter_cons, Bool.not_true]
      simpa using ih
    · have hw' : s.warningOnly = false := by simpa using hw
      by_cases hp : JsNum.ge (minHealthUnderScenario borrowUsdc s positions
          ethSpot ltvForNew liquidationThreshold poolAtStart).minHealth
          (.fin 1) = true
      · simp [hw', hp, List.filter_cons, List.takeWhile_cons,
          List.dropWhile_cons, ih]
      · rw [Bool.not_eq_true] at hp
        simp [hw', hp, List.filter_cons, List.takeWhile_cons,
          List.dropWhile_cons]

/-- C4.  The gate returns `true` iff every non-warning scenario evaluates
to `minHealth >= 1` (boundary inclusive: the comparison at exactly 1 is
`true`); `warningOnly` scenarios are never evaluated; and evaluation stops
at the first failing non-warning scenario without evaluating later
scenarios. -/
theorem isBorrowSafeAcrossScenarios_gate_spec (borrowUsdc : ℚ)
    (scenarios : List StressScenario) (positions : List IPosition)
    (ethSpot : ℚ) (poolAtStart : LiquidityPool)
    (ltvForNew liquidationThreshold : ℚ) :
    (isBorrowSafeAcrossScenarios borrowUsdc scenarios positions ethSpot
        poolAtStart ltvForNew liquidationThreshold = true ↔
      ∀ s ∈ scenarios, s.warningOnly = false →
        JsNum.ge (minHealthUnderScenario borrowUsdc s positions ethSpot
          ltvForNew liquidationThreshold poolAtStart).minHealth
          (.fin 1) = true) ∧
    JsNum.ge (.fin 1) (.fin 1) = true ∧
    (∀ s ∈ gateEvaluatedScenarios borrowUsdc scenarios positions ethSpot
        poolAtStart ltvForNew liquidationThreshold,
      s.warningOnly = false) ∧
    gateEvaluatedScenarios borrowUsdc scenarios positions ethSpot
        poolAtStart ltvForNew liquidationThreshold =
      (scenarios.filter (fun s => !s.warningOnly)).takeWhile
        (fun s => JsNum.ge (minHealthUnderScenario borrowUsdc s positions
          ethSpot ltvForNew liquidationThreshold poolAtStart).minHealth
          (.fin 1)) ++
      ((scenarios.filter (fun s => !s.warningOnly)).dropWhile
        (fun s => JsNum.ge (minHealthUnderScenario borrowUsdc s positions
          ethSpot ltvForNew liquidationThreshold poolAtStart).minHealth
          (.fin 1))).take 1 :=
  ⟨isBorrowSafeAcrossScenarios_true_iff borrowUsdc scenarios positions
      ethSpot poolAtStart ltvForNew liquidationThreshold,
   by simp [JsNum.ge],
   gateEvaluatedScenarios_no_warning borrowUsdc scenarios positions
      ethSpot poolAtStart ltvForNew liquidationThreshold,
   gateEvaluatedScenarios_stops_at_failure borrowUsdc scenarios positions
      ethSpot poolAtStart ltvForNew liquidationThreshold⟩

/-- C10.  The gate fails closed on non-comparable health values: it never
returns `true` unless every non-warning scenario's `minHealth` passes the
IEEE `>= 1` comparison (which `NaN` never does), and a non-warning
scenario whose evaluated `minHealth` is `NaN` forces the gate to return
`false`. -/
theorem gate_fails_closed_on_nan (borrowUsdc : ℚ)
    (scenarios : List StressScenario) (positions : List IPosition)
    (ethSpot : ℚ) (poolAtStart : LiquidityPool)
    (ltvForNew liquidationThreshold : ℚ) :
    (isBorrowSafeAcrossScenarios borrowUsdc scenarios positions ethSpot
        poolAtStart ltvForNew liquidationThreshold = true →
      ∀ s ∈ scenarios, s.warningOnly = false →
        JsNum.ge (minHealthUnderScenario borrowUsdc s positions ethSpot
          ltvForNew liquidationThreshold poolAtStart).minHealth
          (.fin 1) = true) ∧
    (∀ s ∈ scenarios, s.warningOnly = false →
      (minHealthUnderScenario borrowUsdc s positions ethSpot ltvForNew
        liquidationThreshold poolAtStart).minHealth = JsNum.nan →
      isBorrowSafeAcrossScenarios borrowUsdc scenarios positions ethSpot
        poolAtStart ltvForNew liquidationThreshold = false) := by
  constructor
  · intro h
    exact (isBorrowSafeAcrossScenarios_true_iff borrowUsdc scenarios
      positions ethSpot poolAtStart ltvForNew liquidationThreshold).1 h
  · intro s hs hwarn hnan
    by_contra hfalse
    rw [Bool.not_eq_false] at hfalse
    have hge := (isBorrowSafeAcrossScenarios_true_iff borrowUsdc scenarios
      positions ethSpot poolAtStart ltvForNew liquidationThreshold).1
      hfalse s hs hwarn
    rw [hnan] at hge
    simp [JsNum.ge] at hge

/-- Witness for C10: a single non-warning scenario over a position with
zero debt and zero collateral; its `0/0` LTV propagates `NaN` through the
health score and the `Math.min` fold, and the gate returns `false`. -/
theorem gate_fails_closed_on_nan_witness :
    isBorrowSafeAcrossScenarios 0 [⟨"NaN scenario", 0, 1, false⟩]
      [⟨0, 0, 1/2, 0, 2000⟩] 2000 (LiquidityPool.make 1000 100)
      (2/5) (3/5) = false :=
  (gate_fails_closed_on_nan 0 [⟨"NaN scenario", 0, 1, false⟩]
      [⟨0, 0, 1/2, 0, 2000⟩] 2000 (LiquidityPool.make 1000 100)
      (2/5) (3/5)).2
    ⟨"NaN scenario", 0, 1, false⟩ (by simp) rfl
    (by norm_num [minHealthUnderScenario, computePositionMetrics,
      LiquidityPool.clone, LiquidityPool.make, LiquidityPool.getRzrPriceInUsd,
      LiquidityPool.getRzrPrice, JsNum.div, JsNum.min])

/-- Helper: once the loop guard fails, further fuel changes nothing. -/
lemma bsearchGo64_exit (ok : ℕ → Bool) (tolerance : ℕ) (s : BSearchState64)
    (h : ¬ tolerance < s.hi - s.lo) :
    ∀ n, bsearchGo64 ok tolerance n s = s := by
  intro n
  cases n with
  | zero => rfl
  | succ n => rw [bsearchGo64, if_neg h]

/-- Helper: fuel composes — running `m + n` iterations is running `m`,
then `n` from there. -/
lemma bsearchGo64_add (ok : ℕ → Bool) (tolerance : ℕ) :
    ∀ (m n : ℕ) (s : BSearchState64),
      bsearchGo64 ok tolerance (m + n) s =
        bsearchGo64 ok tolerance n (bsearchGo64 ok tolerance m s) := by
  intro m
  induction m with
  | zero =>
    intro n s
    rw [Nat.zero_add]
    rfl
  | succ m ih =>
    intro n s
    rw [Nat.succ_add, bsearchGo64]
    conv_rhs => rw [bsearchGo64]
    by_cases h : tolerance < s.hi - s.lo
    · rw [if_pos h, if_pos h]
      by_cases hok : ok (midF64 s.lo s.hi)
      · simp only [hok, if_true]
        exact ih n _
      · simp only [hok, if_false, Bool.false_eq_true]
        exact ih n _
    · rw [if_neg h, if_neg h]
      exact (bsearchGo64_exit ok tolerance s h n).symm

/-- Helper: a state the one-step loop maps to itself is preserved by any
amount of fuel. -/
lemma bsearchGo64_fixed (ok : ℕ → Bool) (tolerance : ℕ) (s : BSearchState64)
    (hfix : bsearchGo64 ok tolerance 1 s = s) :
    ∀ m, bsearchGo64 ok tolerance m s = s := by
  intro m
  induction m with
  | zero => rfl
  | succ m ih =>
    have h1 : m + 1 = 1 + m := Nat.add_comm m 1
    rw [h1, bsearchGo64_add ok tolerance 1 m s, hfix, ih]

set_option maxRecDepth 40000 in
/-- C8, counterexample.  The claim says the binary search either
terminates below tolerance or surfaces a distinguishable NonConvergence
failure.  In fact the loop has no iteration cap and no failure channel:
under exact binary64 arithmetic, with tolerance 0 on `[0, 1]` and a gate
accepting exactly the borrows `≤ 0.5`, the iteration reaches the adjacent
straddling pair `(0.5, 0.5 + 2⁻⁵³)` after 53 steps, the midpoint rounds
back to `lo`, the state repeats, and the loop guard holds after every
number of iterations — the loop never exits and nothing is reported. -/
theorem bsearch_zero_tolerance_loops_forever : bsearch64NeverExits := by
  have hreach : bsearchGo64 thresholdGate60 0 53 ⟨0, 1152921504606846976, 0⟩ =
      stuckState60 := by decide
  have hfix : ∀ m, bsearchGo64 thresholdGate60 0 m stuckState60 =
      stuckState60 :=
    bsearchGo64_fixed thresholdGate60 0 stuckState60 (by decide)
  intro n
  by_cases hn : n < 53
  · have hb : ∀ k, k < 53 →
        0 < (bsearchGo64 thresholdGate60 0 k ⟨0, 1152921504606846976, 0⟩).hi -
          (bsearchGo64 thresholdGate60 0 k ⟨0, 1152921504606846976, 0⟩).lo := by
      decide
    exact hb n hn
  · push_neg at hn
    obtain ⟨m, rfl⟩ : ∃ m, n = 53 + m := ⟨n - 53, by omega⟩
    rw [bsearchGo64_add thresholdGate60 0 53 m, hreach, hfix]
    decide

/-- C8, amended.  The inner `while (hi - lo > tolerance)` loop of
`solveMaxBorrow` has no safety iteration cap and its result type carries
no failure variant, so non-convergence is never reported: any state the
binary64 loop body maps to itself while its guard still holds — such as
the adjacent straddling pair a monotone gate produces at tolerance 0 —
persists through every further iteration, the loop neither terminates
below tolerance nor stops, and the caller gets no NonConvergence
signal. -/
theorem bsearch_no_iteration_cap (ok : ℕ → Bool) (tolerance : ℕ)
    (s : BSearchState64) (n : ℕ)
    (hguard : tolerance < s.hi - s.lo)
    (hfix : bsearchGo64 ok tolerance 1 s = s) :
    bsearchGo64 ok tolerance n s = s ∧
    tolerance < (bsearchGo64 ok tolerance n s).hi -
      (bsearchGo64 ok tolerance n s).lo := by
  have hall := bsearchGo64_fixed ok tolerance s hfix n
  exact ⟨hall, by rw [hall]; exact hguard⟩

/-- Witness for C8 (amended): the straddling state `(0.5, 0.5 + 2⁻⁵³)`
under the threshold gate at tolerance 0 is still unchanged — guard still
true — after 100 further iterations. -/
theorem bsearch_no_iteration_cap_witness :
    bsearchGo64 thresholdGate60 0 100 stuckState60 = stuckState60 ∧
    (0 : ℕ) < (bsearchGo64 thresholdGate60 0 100 stuckState60).hi -
      (bsearchGo64 thresholdGate60 0 100 stuckState60).lo :=
  bsearch_no_iteration_cap thresholdGate60 0 stuckState60 100
    (by decide) (by decide)

/-- Helper: if the borrow-0 gate fails at every LTV the sweep visits, the
sweep leaves the accumulator untouched. -/
lemma solveSweepGo_gate_all_fail (scenarios : List StressScenario)
    (options : SolveOptions) (bsFuel : ℕ) :
    ∀ (fuel : ℕ) (ltv : ℚ) (acc : ℚ × ℚ),
      (∀ l ∈ sweepLtvCandidates fuel ltv options.ltvMax,
        isBorrowSafeAcrossScenarios 0 scenarios options.positions
          options.ethSpot options.poolAtStart l
          options.liquidationThreshold = false) →
      solveSweepGo scenarios options bsFuel fuel ltv acc = acc := by
  intro fuel
  induction fuel with
  | zero => intro ltv acc _; rfl
  | succ fuel ih =>
    intro ltv acc hfail
    rw [solveSweepGo]
    by_cases hle : ltv ≤ options.ltvMax
    · have hhead : isBorrowSafeAcrossScenarios 0 scenarios options.positions
          options.ethSpot options.poolAtStart ltv
          options.liquidationThreshold = false := by
        apply hfail
        rw [sweepLtvCandidates, if_pos hle]
        exact List.mem_cons_self _ _
      have htail : ∀ l ∈ sweepLtvCandidates fuel (ltv + 1 / 20) options.ltvMax,
          isBorrowSafeAcrossScenarios 0 scenarios options.positions
            options.ethSpot options.poolAtStart l
            options.liquidationThreshold = false := by
        intro l hl
        apply hfail
        rw [sweepLtvCandidates, if_pos hle]
        exact List.mem_cons_of_mem _ hl
      rw [if_pos hle, hhead]
      simpa using ih (ltv + 1 / 20) acc htail
    · rw [if_neg hle]

/-- C9.  If the safety gate already fails at borrow 0 for every candidate
LTV in the swept range, `solveMaxBorrow` returns
`maxSafeBorrowUsdc = 0` and `optimalLtv = ltvRange.min` — a degenerate
success, not an error. -/
theorem solveMaxBorrow_no_safe_borrow (scenarios : List StressScenario)
    (options : SolveOptions) (sweepFuel bsFuel : ℕ)
    (hfail : ∀ l ∈ sweepLtvCandidates sweepFuel options.ltvMin options.ltvMax,
      isBorrowSafeAcrossScenarios 0 scenarios options.positions
        options.ethSpot options.poolAtStart l
        options.liquidationThreshold = false) :
    (solveMaxBorrow scenarios options sweepFuel bsFuel).maxSafeBorrowUsdc = 0 ∧
    (solveMaxBorrow scenarios options sweepFuel bsFuel).optimalLtv =
      options.ltvMin := by
  have h := solveSweepGo_gate_all_fail scenarios options bsFuel sweepFuel
    options.ltvMin (0, options.ltvMin) hfail
  constructor
  · show (⌊(solveSweepGo scenarios options bsFuel sweepFuel options.ltvMin
      (0, options.ltvMin)).1⌋ : ℤ) = 0
    rw [h]
    norm_num
  · show (solveSweepGo scenarios options bsFuel sweepFuel options.ltvMin
      (0, options.ltvMin)).2 = options.ltvMin
    rw [h]


/-- Witness for C9: one non-warning no-stress scenario over a position
whose health is `0.8 < 1` (collateral 100 RZR at price 200, debt 15000,
liquidation LTV 3/5), so borrow 0 already fails the gate at every swept
LTV; the solver returns borrow 0 at `ltvRange.min = 3/10`. -/
theorem solveMaxBorrow_no_safe_borrow_witness :
    (solveMaxBorrow [⟨"No stress", 0, 1, false⟩]
        ⟨1, 10, [⟨100, 15000, 3/5, 5, 2000⟩], 2000,
          LiquidityPool.make 1000 100, 3/10, 2/5, 3/5⟩ 3 5).maxSafeBorrowUsdc =
      0 ∧
    (solveMaxBorrow [⟨"No stress", 0, 1, false⟩]
        ⟨1, 10, [⟨100, 15000, 3/5, 5, 2000⟩], 2000,
          LiquidityPool.make 1000 100, 3/10, 2/5, 3/5⟩ 3 5).optimalLtv =
      3 / 10 :=
  solveMaxBorrow_no_safe_borrow [⟨"No stress", 0, 1, false⟩]
    ⟨1, 10, [⟨100, 15000, 3/5, 5, 2000⟩], 2000,
      LiquidityPool.make 1000 100, 3/10, 2/5, 3/5⟩ 3 5
    (by
      intro l hl
      have hc : sweepLtvCandidates 3 (3/10) (2/5) = [3/10, 7/20, 2/5] := by
        norm_num [sweepLtvCandidates]
      have hl' : l ∈ ([3/10, 7/20, 2/5] : List ℚ) := by
        rw [← hc]; exact hl
      simp only [List.mem_cons, List.not_mem_nil, or_false] at hl'
      rcases hl' with rfl | rfl | rfl <;>
        norm_num [isBorrowSafeAcrossScenarios, minHealthUnderScenario,
          computePositionMetrics, LiquidityPool.clone, LiquidityPool.make,
          LiquidityPool.getRzrPriceInUsd, LiquidityPool.getRzrPrice,
          JsNum.div, JsNum.min, JsNum.ge])

/-- Helper: the sweep emits nothing once the running LTV exceeds the
range maximum. -/
lemma sweepLtvCandidates_nil (fuel : ℕ) (x mx : ℚ) (h : mx < x) :
    sweepLtvCandidates fuel x mx = [] := by
  cases fuel with
  | zero => rfl
  | succ fuel => rw [sweepLtvCandidates, if_neg (not_le.2 h)]

/-- Helper: under exact rational arithmetic, when the range width is an
exact multiple `k / 20` of the step, the sweep visits exactly
`min + i / 20` for `i = 0, …, k`. -/
lemma sweepLtvCandidates_exact : ∀ (k fuel : ℕ) (mn mx : ℚ),
    mx = mn + (k : ℚ) / 20 → k < fuel →
    sweepLtvCandidates fuel mn mx =
      (List.range (k + 1)).map (fun i : ℕ => mn + (i : ℚ) / 20) := by
  intro k
  induction k with
  | zero =>
    intro fuel mn mx hmx hf
    obtain ⟨f, rfl⟩ : ∃ f, fuel = f + 1 :=
      ⟨fuel - 1, (Nat.succ_pred_eq_of_pos hf).symm⟩
    have hx : mx = mn := by simpa using hmx
    rw [sweepLtvCandidates, if_pos (le_of_eq hx.symm),
      sweepLtvCandidates_nil f (mn + 1 / 20) mx (by rw [hx]; linarith),
      List.range_succ]
    simp
  | succ k ih =>
    intro fuel mn mx hmx hf
    obtain ⟨f, rfl⟩ : ∃ f, fuel = f + 1 :=
      ⟨fuel - 1, (Nat.succ_pred_eq_of_pos (by omega)).symm⟩
    have hk : k < f := by omega
    have hle : mn ≤ mx := by
      rw [hmx]
      have h0 : (0 : ℚ) ≤ ((k + 1 : ℕ) : ℚ) / 20 := by positivity
      linarith
    rw [sweepLtvCandidates, if_pos hle,
      ih f (mn + 1 / 20) mx (by rw [hmx]; push_cast; ring) hk]
    conv_rhs => rw [List.range_succ_eq_map]
    simp only [List.map_cons, List.map_map, Nat.cast_zero, zero_div, add_zero]
    congr 1
    apply List.map_congr_left
    intro i _
    simp only [Function.comp_apply]
    push_cast
    ring

/-- C5, amended.  The outer sweep steps by repeated accumulation
`ltv += 0.05`, not by index-based stepping; under the exact-rational
semantics of this embedding the two coincide, and the sweep visits exactly
`min + i / 20` for `i = 0, …, k` — the boundary `max` included — whenever
`max - min` is the exact multiple `k / 20` of the step.  (Under binary64
accumulation this is false; see the drift counterexample.) -/
theorem ltv_sweep_exact_arithmetic (mn mx : ℚ) (k fuel : ℕ)
    (hmx : mx = mn + (k : ℚ) / 20) (hfuel : k < fuel) :
    sweepLtvCandidates fuel mn mx =
      (List.range (k + 1)).map (fun i : ℕ => mn + (i : ℚ) / 20) ∧
    mx ∈ sweepLtvCandidates fuel mn mx := by
  have h := sweepLtvCandidates_exact k fuel mn mx hmx hfuel
  refine ⟨h, ?_⟩
  rw [h]
  simp only [List.mem_map, List.mem_range]
  exact ⟨k, Nat.lt_succ_self k, hmx.symm⟩

/-- Witness for C5 (amended): the range `[3/10, 4/5]` with width
`10 / 20` visits the eleven exact candidates and includes the boundary. -/
theorem ltv_sweep_exact_arithmetic_witness :
    sweepLtvCandidates 11 (3/10) (4/5) =
      (List.range 11).map (fun i : ℕ => 3/10 + (i : ℚ) / 20) ∧
    (4/5 : ℚ) ∈ sweepLtvCandidates 11 (3/10) (4/5) :=
  ltv_sweep_exact_arithmetic (3/10) (4/5) 10 11 (by norm_num) (by norm_num)

/-- C5, counterexample.  Under the code's actual binary64 accumulation
(`ltv += 0.05` starting from the double `0.3` with bound the double `0.8`,
modelled exactly at scale `2 ^ 60`), the sweep visits only ten candidates,
its third candidate `461168601842738752 / 2 ^ 60 ≈ 0.39999999999999997`
differs from `min + 2 · step` (and from the exact `0.4`), and the boundary
`0.8` is never visited even though `max - min` is a multiple of the step —
so the sweep does not visit exactly the values `min + i · 0.05`. -/
theorem ltv_sweep_binary64_drift :
    (sweepLtv64 20 ltvMin60 ltvMax60).length = 10 ∧
    (sweepLtv64 20 ltvMin60 ltvMax60).get? 2 = some 461168601842738752 ∧
    ltvMin60 + 2 * step60 ≠ 461168601842738752 ∧
    ltvMax60 ∉ sweepLtv64 20 ltvMin60 ltvMax60 ∧
    sweepLtv64 20 ltvMin60 ltvMax60 ≠
      (List.range 11).map (fun i => ltvMin60 + i * step60) ∧
    ((461168601842738752 : ℚ) / 2 ^ 60 ≠ 3 / 10 + 2 * (1 / 20)) :=
  ⟨by decide, by decide, by decide, by decide, by decide, by norm_num⟩

/-- Helper: writing at the index of a freshly appended cell replaces that
cell and leaves the prefix untouched. -/
lemma set_append_singleton_length {α : Type} (l : List α) (a b : α) :
    (l ++ [a]).set l.length b = l ++ [b] := by
  induction l with
  | nil => rfl
  | cons x xs ih => simp [ih]

/-- Helper: the final store of `minHealthUnderScenarioStore` is the input
store with exactly one pool cell and one array cell appended — every
mutation lands in the freshly allocated cells. -/
lemma minHealthUnderScenarioStore_shape (st : Store) (borrowUsdc : ℚ)
    (scenario : StressScenario) (positionsRef : ℕ)
    (ethSpot ltvForNew lltvForNew : ℚ) (poolRef : ℕ) :
    ∃ p a,
      (minHealthUnderScenarioStore st borrowUsdc scenario positionsRef
        ethSpot ltvForNew lltvForNew poolRef).2.pools = st.pools ++ [p] ∧
      (minHealthUnderScenarioStore st borrowUsdc scenario positionsRef
        ethSpot ltvForNew lltvForNew poolRef).2.arrays = st.arrays ++ [a] := by
  obtain ⟨P, A⟩ := st
  by_cases hb : 0 < borrowUsdc <;> by_cases hs : 0 < scenario.rzrSold <;>
    simp [minHealthUnderScenarioStore, Store.clonePool, Store.allocPool,
      Store.allocArray, Store.getPool, Store.getArray, Store.setPool,
      Store.setArray, hb, hs, set_append_singleton_length]

/-- Helper: the store-level run returns the same result record as the pure
function of the values held at the two input references. -/
lemma minHealthUnderScenarioStore_agrees (st : Store) (borrowUsdc : ℚ)
    (scenario : StressScenario) (positionsRef : ℕ)
    (ethSpot ltvForNew lltvForNew : ℚ) (poolRef : ℕ) :
    (minHealthUnderScenarioStore st borrowUsdc scenario positionsRef
      ethSpot ltvForNew lltvForNew poolRef).1 =
    minHealthUnderScenario borrowUsdc scenario (st.getArray positionsRef)
      ethSpot ltvForNew lltvForNew (st.getPool poolRef) := by
  obtain ⟨P, A⟩ := st
  by_cases hb : 0 < borrowUsdc <;> by_cases hs : 0 < scenario.rzrSold <;>
    simp [minHealthUnderScenarioStore, minHealthUnderScenario,
      LiquidityPool.clone, Store.clonePool, Store.allocPool, Store.allocArray,
      Store.getPool, Store.getArray, Store.setPool, Store.setArray, hb, hs,
      set_append_singleton_length, List.getElem?_concat_length]

/-- C2.  `minHealthUnderScenario` is pure with respect to its inputs: run
at store level on references to the caller's live pool and positions
array, it leaves the value at the caller's pool reference and at the
positions reference unchanged (indeed every pre-existing cell of both
heaps is unchanged — all speculative `addLiquidity` / `swapRzrForEth` /
`push` mutations land in the cells freshly allocated by `clone()` and by
the copy `[...positions]`, with no aliasing to the live pool), and its
result record is exactly the pure function of the input values. -/
theorem minHealthUnderScenario_pure_frame (st : Store) (borrowUsdc : ℚ)
    (scenario : StressScenario) (positionsRef : ℕ)
    (ethSpot ltvForNew lltvForNew : ℚ) (poolRef : ℕ)
    (hp : poolRef < st.pools.length) (ha : positionsRef < st.arrays.length) :
    (minHealthUnderScenarioStore st borrowUsdc scenario positionsRef
        ethSpot ltvForNew lltvForNew poolRef).2.getPool poolRef =
      st.getPool poolRef ∧
    (minHealthUnderScenarioStore st borrowUsdc scenario positionsRef
        ethSpot ltvForNew lltvForNew poolRef).2.getArray positionsRef =
      st.getArray positionsRef ∧
    (minHealthUnderScenarioStore st borrowUsdc scenario positionsRef
        ethSpot ltvForNew lltvForNew poolRef).2.pools.take st.pools.length =
      st.pools ∧
    (minHealthUnderScenarioStore st borrowUsdc scenario positionsRef
        ethSpot ltvForNew lltvForNew poolRef).2.arrays.take st.arrays.length =
      st.arrays ∧
    (minHealthUnderScenarioStore st borrowUsdc scenario positionsRef
        ethSpot ltvForNew lltvForNew poolRef).1 =
      minHealthUnderScenario borrowUsdc scenario (st.getArray positionsRef)
        ethSpot ltvForNew lltvForNew (st.getPool poolRef) := by
  obtain ⟨p, a, hpools, harrays⟩ := minHealthUnderScenarioStore_shape st
    borrowUsdc scenario positionsRef ethSpot ltvForNew lltvForNew poolRef
  refine ⟨?_, ?_, ?_, ?_,
    minHealthUnderScenarioStore_agrees st borrowUsdc scenario positionsRef
      ethSpot ltvForNew lltvForNew poolRef⟩
  · rw [Store.getPool, hpools, List.get?_append hp]; rfl
  · rw [Store.getArray, harrays, List.get?_append ha]; rfl
  · rw [hpools, List.take_left]
  · rw [harrays, List.take_left]

/-- Witness for C2: a store holding one live pool `(1000, 100)` and one
positions array; after running the evaluator on a borrow of 5000 under a
stress sell of 50, the caller's pool cell and positions cell are
unchanged and the result equals the pure evaluation. -/
theorem minHealthUnderScenario_pure_frame_witness :
    (minHealthUnderScenarioStore
        ⟨[LiquidityPool.make 1000 100], [[⟨100, 15000, 4/5, 5, 2000⟩]]⟩
        5000 ⟨"Stress", 50, 9/10, false⟩ 0 2000 (2/5) (3/5) 0).2.getPool 0 =
      Store.getPool ⟨[LiquidityPool.make 1000 100],
        [[⟨100, 15000, 4/5, 5, 2000⟩]]⟩ 0 ∧
    (minHealthUnderScenarioStore
        ⟨[LiquidityPool.make 1000 100], [[⟨100, 15000, 4/5, 5, 2000⟩]]⟩
        5000 ⟨"Stress", 50, 9/10, false⟩ 0 2000 (2/5) (3/5) 0).2.getArray 0 =
      Store.getArray ⟨[LiquidityPool.make 1000 100],
        [[⟨100, 15000, 4/5, 5, 2000⟩]]⟩ 0 ∧
    (minHealthUnderScenarioStore
        ⟨[LiquidityPool.make 1000 100], [[⟨100, 15000, 4/5, 5, 2000⟩]]⟩
        5000 ⟨"Stress", 50, 9/10, false⟩ 0 2000 (2/5) (3/5) 0).2.pools.take 1 =
      [LiquidityPool.make 1000 100] ∧
    (minHealthUnderScenarioStore
        ⟨[LiquidityPool.make 1000 100], [[⟨100, 15000, 4/5, 5, 2000⟩]]⟩
        5000 ⟨"Stress", 50, 9/10, false⟩ 0 2000 (2/5) (3/5) 0).2.arrays.take 1 =
      [[⟨100, 15000, 4/5, 5, 2000⟩]] ∧
    (minHealthUnderScenarioStore
        ⟨[LiquidityPool.make 1000 100], [[⟨100, 15000, 4/5, 5, 2000⟩]]⟩
        5000 ⟨"Stress", 50, 9/10, false⟩ 0 2000 (2/5) (3/5) 0).1 =
      minHealthUnderScenario 5000 ⟨"Stress", 50, 9/10, false⟩
        (Store.getArray ⟨[LiquidityPool.make 1000 100],
          [[⟨100, 15000, 4/5, 5, 2000⟩]]⟩ 0) 2000 (2/5) (3/5)
        (Store.getPool ⟨[LiquidityPool.make 1000 100],
          [[⟨100, 15000, 4/5, 5, 2000⟩]]⟩ 0) :=
  minHealthUnderScenario_pure_frame
    ⟨[LiquidityPool.make 1000 100], [[⟨100, 15000, 4/5, 5, 2000⟩]]⟩
    5000 ⟨"Stress", 50, 9/10, false⟩ 0 2000 (2/5) (3/5) 0
    (by norm_num) (by norm_num)

/-- Witness for C4: the gate specification instantiated at a concrete
single-warning-scenario configuration. -/
theorem isBorrowSafeAcrossScenarios_gate_spec_witness :
    (isBorrowSafeAcrossScenarios 0 [⟨"W", 0, 1, true⟩] [] 1
        (LiquidityPool.make 1 1) 1 1 = true ↔
      ∀ s ∈ [(⟨"W", 0, 1, true⟩ : StressScenario)], s.warningOnly = false →
        JsNum.ge (minHealthUnderScenario 0 s [] 1 1 1
          (LiquidityPool.make 1 1)).minHealth (.fin 1) = true) ∧
    JsNum.ge (.fin 1) (.fin 1) = true ∧
    (∀ s ∈ gateEvaluatedScenarios 0 [⟨"W", 0, 1, true⟩] [] 1
        (LiquidityPool.make 1 1) 1 1, s.warningOnly = false) ∧
    gateEvaluatedScenarios 0 [⟨"W", 0, 1, true⟩] [] 1
        (LiquidityPool.make 1 1) 1 1 =
      (([(⟨"W", 0, 1, true⟩ : StressScenario)]).filter
          (fun s => !s.warningOnly)).takeWhile
        (fun s => JsNum.ge (minHealthUnderScenario 0 s [] 1 1 1
          (LiquidityPool.make 1 1)).minHealth (.fin 1)) ++
      ((([(⟨"W", 0, 1, true⟩ : StressScenario)]).filter
          (fun s => !s.warningOnly)).dropWhile
        (fun s => JsNum.ge (minHealthUnderScenario 0 s [] 1 1 1
          (LiquidityPool.make 1 1)).minHealth (.fin 1))).take 1 :=
  isBorrowSafeAcrossScenarios_gate_spec 0 [⟨"W", 0, 1, true⟩] [] 1
    (LiquidityPool.make 1 1) 1 1
